import Mathlib

/-!
Verification of the QEMU plugin ABI (qemu-plugin.h) against its
specification.  The repository ships only the public header: it declares
the plugin entry points, opaque handles, registration functions,
introspection queries and the constants of the ABI.  The host runtime that
implements those contracts is not part of the repository, so every
behavioural definition below is modelled from the specification text
(and the documentation comments of the header); the numeric constants are
taken verbatim from the header.
-/

namespace QemuPlugin

/-! ## Constants from the header -/

/-- From qemu-plugin.h line 57: `#define QEMU_PLUGIN_VERSION 7`. -/
def QEMU_PLUGIN_VERSION : Int := 7

/-- From qemu-plugin.h line 263: TB is a special block performing memory
I/O only; block- and instruction-level callbacks have no effect. -/
def QEMU_PLUGIN_TB_MEM_ONLY : Nat := 0x01

/-- From qemu-plugin.h line 264: TB has at least one instruction that
accesses memory; memory callbacks are applicable to this TB. -/
def QEMU_PLUGIN_TB_MEM_OPS : Nat := 0x02

/-! ## Identity and versioning (spec section 4.1) -/

/-- The `{min, cur}` ABI version pair of `qemu_info_t.version`
(qemu-plugin.h lines 71 to 74). -/
structure VersionInfo where
  min : Int
  cur : Int

/-- Outcome of loading a plugin: either the load is refused before the
entry point runs, or `qemu_plugin_install` ran and returned a code. -/
inductive LoadResult where
  | refused : LoadResult
  | installed : Int → LoadResult

/-- Modelled from the spec: the loader (not in the repository; the header
only declares `qemu_plugin_version` and `qemu_plugin_install`).  "The host
reads an exported integer naming the ABI level the plugin was built for.
Contract: if that integer is outside [HostInfo.version.min,
HostInfo.version.cur], loading fails before the entry point runs."  The
entry point is taken as a function argument; in the refused branch it is
never consulted. -/
def qemu_plugin_load (host : VersionInfo) (pluginVersion : Int)
    (install : Unit → Int) : LoadResult :=
  if pluginVersion < host.min ∨ host.cur < pluginVersion then
    LoadResult.refused
  else
    LoadResult.installed (install ())

/-- Modelled from the spec: PluginId issuance by the loader (not in the
repository).  "PluginId — 64-bit opaque identity.  Created at load.
Invariant: unique for the lifetime of the host process; never reused."
The loader holds a monotone counter and hands out the next value at each
load. -/
structure LoaderState where
  next_id : Nat

/-- Issue a fresh PluginId: return the current counter value and advance
the counter. -/
def issue_plugin_id (s : LoaderState) : Nat × LoaderState :=
  (s.next_id, ⟨s.next_id + 1⟩)

/-- The PluginId issued to the k-th plugin loaded after state `s`
(0-indexed), obtained by iterating `issue_plugin_id`. -/
def issued_id (s : LoaderState) : Nat → Nat
  | 0 => (issue_plugin_id s).fst
  | k + 1 => issued_id (issue_plugin_id s).snd k

/-! ## Mode-dependent process-level queries (header lines 689, 886 to 949) -/

/-- The system-vs-user mode flag of `qemu_info_t.system_emulation`
(header line 76). -/
inductive EmulationMode where
  | system_mode : EmulationMode
  | user_mode : EmulationMode
  deriving DecidableEq

/-- The resolved hardware address behind a `qemu_plugin_hwaddr` handle:
IO-vs-RAM flag, physical address, device name (header lines 712 to
739). -/
structure HwAddr where
  is_io : Bool
  phys_addr : Nat
  device_name : String

/-- Modelled from the spec: the host-process facts the mode-dependent
queries draw on (the emulator itself is not in the repository): emulation
mode, vCPU counts, the user-mode text segment, the path of the main binary,
and the system-mode MMU translation of a (meminfo, vaddr) pair. -/
structure HostState where
  mode : EmulationMode
  live_vcpus : Nat
  max_vcpus : Nat
  text_start : Nat
  text_end : Nat
  text_entry : Nat
  binary_path : String
  translate : Nat → Nat → HwAddr

/-- Modelled from the spec: `qemu_plugin_n_vcpus` (header line 887),
"returns -1 in user-mode". -/
def qemu_plugin_n_vcpus (h : HostState) : Int :=
  match h.mode with
  | EmulationMode.user_mode => -1
  | EmulationMode.system_mode => (h.live_vcpus : Int)

/-- Modelled from the spec: `qemu_plugin_n_max_vcpus` (header line 890),
"returns -1 in user-mode". -/
def qemu_plugin_n_max_vcpus (h : HostState) : Int :=
  match h.mode with
  | EmulationMode.user_mode => -1
  | EmulationMode.system_mode => (h.max_vcpus : Int)

/-- Modelled from the spec: `qemu_plugin_start_code` (header lines 924
to 931), "Currently returns 0 for system emulation". -/
def qemu_plugin_start_code (h : HostState) : Nat :=
  match h.mode with
  | EmulationMode.user_mode => h.text_start
  | EmulationMode.system_mode => 0

/-- Modelled from the spec: `qemu_plugin_end_code` (header lines 933 to
940), "Currently returns 0 for system emulation". -/
def qemu_plugin_end_code (h : HostState) : Nat :=
  match h.mode with
  | EmulationMode.user_mode => h.text_end
  | EmulationMode.system_mode => 0

/-- Modelled from the spec: `qemu_plugin_entry_code` (header lines 942
to 949), "Currently returns 0 for system emulation". -/
def qemu_plugin_entry_code (h : HostState) : Nat :=
  match h.mode with
  | EmulationMode.user_mode => h.text_entry
  | EmulationMode.system_mode => 0

/-- Modelled from the spec: `qemu_plugin_get_hwaddr` (header lines 689
to 704), "For system emulation returns a qemu_plugin_hwaddr handle ...
For linux-user guests it just returns NULL"; NULL is `none`. -/
def qemu_plugin_get_hwaddr (h : HostState) (info : Nat) (vaddr : Nat) :
    Option HwAddr :=
  match h.mode with
  | EmulationMode.user_mode => none
  | EmulationMode.system_mode => some (h.translate info vaddr)

/-- Modelled from the spec: `qemu_plugin_path_to_binary` (header lines
913 to 922), "For user-mode this is the main executable.  For system
emulation we currently return NULL"; NULL is `none`. -/
def qemu_plugin_path_to_binary (h : HostState) : Option String :=
  match h.mode with
  | EmulationMode.user_mode => some h.binary_path
  | EmulationMode.system_mode => none

/-- A concrete user-mode host state, used by witnesses. -/
def user_host : HostState :=
  ⟨EmulationMode.user_mode, 1, 1, 0x1000, 0x2000, 0x1100, "/bin/guest",
   fun _ _ => ⟨false, 0, "mem"⟩⟩

/-- A concrete system-mode host state, used by witnesses. -/
def system_host : HostState :=
  ⟨EmulationMode.system_mode, 4, 8, 0, 0, 0, "",
   fun _ vaddr => ⟨false, vaddr, "mem"⟩⟩

/-! ## Register contexts (header lines 564 to 636) -/

/-- One slot of a register context: the name of the register, the host
address of its plugin-visible data buffer, and the current byte
contents. -/
structure RegSlot where
  reg_name : String
  addr : Nat
  bytes : List Nat

/-- A `qemu_plugin_reg_ctx`: the ordered list of slots created from the
name list given to `qemu_plugin_reg_create_context`. -/
structure RegCtx where
  slots : List RegSlot

/-- The vCPU state a load reads from: current byte contents of each
register, by name. -/
structure VcpuState where
  read_reg : String → List Nat

/-- Modelled from the spec: `qemu_plugin_regs_load` (header lines 626 to
636; the implementation is not in the repository).  "The data will be
overwritten in the context at the same positions": each slot keeps its
name and buffer address and only its byte contents are replaced by the
current value of that register in the vCPU. -/
def qemu_plugin_regs_load (vcpu : VcpuState) (ctx : RegCtx) : RegCtx :=
  ⟨ctx.slots.map (fun s => { s with bytes := vcpu.read_reg s.reg_name })⟩

/-- Modelled from the spec: `qemu_plugin_reg_ptr` (header lines 605 to
614) — the host address of the data buffer of slot `idx`. -/
def qemu_plugin_reg_ptr (ctx : RegCtx) (idx : Nat) : Option Nat :=
  (ctx.slots[idx]?).map RegSlot.addr

/-- The byte contents a plugin reads through the slot-`idx` buffer. -/
def qemu_plugin_reg_data (ctx : RegCtx) (idx : Nat) : Option (List Nat) :=
  (ctx.slots[idx]?).map RegSlot.bytes

/-! ## Boolean argument parsing (header lines 899 to 911) -/

/-- Modelled from the spec: `qemu_plugin_bool_parse` (only declared in the
header).  "parses a boolean argument in the form of
name=[on|yes|true|off|no|false]"; returns the parsed boolean on success,
`none` when the value string is not one of the six spellings.  The
argument name is irrelevant to the outcome. -/
def qemu_plugin_bool_parse (name : String) (val : String) : Option Bool :=
  if val = "on" ∨ val = "yes" ∨ val = "true" then
    some true
  else if val = "off" ∨ val = "no" ∨ val = "false" then
    some false
  else
    none

/-! ## Uninstall / Reset Coordinator (spec sections 4.7 and 9) -/

/-- Modelled from the spec: per-plugin lifecycle phase of the uninstall
coordinator (not in the repository; the header only declares
`qemu_plugin_uninstall`).  "Express as a small state machine per plugin:
{active, draining, released}."  `draining` and quiescing are collapsed
into one phase, since the claim only distinguishes what may fire. -/
inductive PluginPhase where
  | active : PluginPhase
  | draining : PluginPhase
  | released : PluginPhase
  deriving DecidableEq

/-- Observable events concerning one plugin: one of its registered
callbacks fires, it requests uninstall, or its completion callback
fires. -/
inductive PluginEvent where
  | cb_fire : PluginEvent
  | uninstall_req : PluginEvent
  | completion_fire : PluginEvent
  deriving DecidableEq

/-- Modelled from the spec: the transitions of the uninstall coordinator.
"Plugins are uninstalled asynchronously, and therefore the given plugin
receives callbacks until cb is called" (header lines 150 to 152):
registered callbacks may fire while active or draining; the uninstall
request moves active to draining; the completion callback is "a terminal
action on entering released"; a released plugin receives no further
events.  `none` means the event cannot occur in that phase. -/
def uninstall_step : PluginPhase → PluginEvent → Option PluginPhase
  | PluginPhase.active, PluginEvent.cb_fire => some PluginPhase.active
  | PluginPhase.active, PluginEvent.uninstall_req => some PluginPhase.draining
  | PluginPhase.draining, PluginEvent.cb_fire => some PluginPhase.draining
  | PluginPhase.draining, PluginEvent.completion_fire => some PluginPhase.released
  | _, _ => none

/-- Run a sequence of events for one plugin from a phase; `some p` when
every event in the sequence can occur, arriving at phase `p`. -/
def run_events : PluginPhase → List PluginEvent → Option PluginPhase
  | p, [] => some p
  | p, e :: es =>
    match uninstall_step p e with
    | some q => run_events q es
    | none => none

/-! ## Handle registry (spec section 4.2) -/

/-- Modelled from the spec: the handle registry (not in the repository).
"The registry maintains a per-callback valid handle set stack frame";
frames are numbered by a monotone counter, and only only the handles of the current frame are live, so to speak
handles are live. -/
structure HandleRegistry where
  current_frame : Nat

/-- An opaque handle: the frame in which it was produced, and the host
object it borrows. -/
structure Handle (α : Type) where
  frame : Nat
  val : α

/-- Result of an introspection query: an answer, or the handle-expired
error of spec section 4.2. -/
inductive QueryResult (α : Type) where
  | ok : α → QueryResult α
  | handle_expired : QueryResult α

/-- Modelled from the spec: dispatch of any introspection query through
the handle registry.  "On entry to a callback it publishes the handles
the callback is allowed to see; on return it invalidates them.  Any
introspection call with a handle outside the current frame fails with
handle expired." -/
def introspect {α β : Type} (reg : HandleRegistry) (h : Handle α)
    (q : α → β) : QueryResult β :=
  if h.frame = reg.current_frame then QueryResult.ok (q h.val)
  else QueryResult.handle_expired

/-- Modelled from the spec: a callback frame exits; the registry moves to
a fresh frame number, so handles of earlier frames are never live
again. -/
def exit_frame (reg : HandleRegistry) : HandleRegistry :=
  ⟨reg.current_frame + 1⟩

/-! ## Translation blocks and instructions (header lines 231 to 265) -/

/-- One memory access performed by a guest instruction during one
execution: its virtual address and direction. -/
structure MemAccess where
  vaddr : Nat
  is_store : Bool
  deriving DecidableEq

/-- A translated guest instruction as seen through the
`qemu_plugin_insn` handle: virtual address, opcode bytes, and whether it
is a control-flow instruction (after-execution hooks are documented for
non-control-flow instructions only, header lines 407 to 408). -/
structure Insn where
  vaddr : Nat
  bytes : List Nat
  is_control_flow : Bool

/-- A translation block as seen through the `qemu_plugin_tb` handle:
virtual start address, its instructions, the flag bitmask of
`qemu_plugin_tb_flags`, and the block hash. -/
structure TB where
  vaddr : Nat
  insns : List Insn
  flags : Nat
  hash : Nat

/-- Modelled from the spec: `qemu_plugin_tb_get_insn` (header lines 475
to 488) as an introspection query through the handle registry; the
returned handle "is only valid for the lifetime of the callback". -/
def qemu_plugin_tb_get_insn (reg : HandleRegistry) (h : Handle TB)
    (idx : Nat) : QueryResult (Option Insn) :=
  introspect reg h (fun tb => tb.insns.get? idx)

/-! ## Callback tables and instrumentation weaving (spec 4.3 to 4.5) -/

/-- The inline operations of `enum qemu_plugin_op` (header lines 358 to
361): plain and atomic 64-bit add. -/
inductive qemu_plugin_op where
  | add_u64 : qemu_plugin_op
  | add_u64_atomic : qemu_plugin_op
  deriving DecidableEq

/-- The direction filter of `enum qemu_plugin_mem_rw` (header lines 267
to 271). -/
inductive MemRW where
  | mem_r : MemRW
  | mem_w : MemRW
  | mem_rw : MemRW
  deriving DecidableEq

/-- Whether a direction filter matches an access: `mem_r` matches loads,
`mem_w` matches stores, `mem_rw` matches both. -/
def rw_matches : MemRW → Bool → Bool
  | MemRW.mem_r, is_store => !is_store
  | MemRW.mem_w, is_store => is_store
  | MemRW.mem_rw, _ => true

/-- An inline-op registration: op kind, target host address,
immediate (spec data model, InlineOp). -/
structure InlineReg where
  op : qemu_plugin_op
  ptr : Nat
  imm : Nat

/-- A memory-callback registration: opaque callback identity and
direction filter. -/
structure MemCbReg where
  cb : Nat
  rw : MemRW

/-- A per-access inline-op registration: direction filter plus inline
op. -/
structure MemInlineReg where
  rw : MemRW
  op : qemu_plugin_op
  ptr : Nat
  imm : Nat

/-- Modelled from the spec: the per-TB callback table built while the
translation callback runs (spec 4.3; the registry implementation is not
in the repository).  Callback identities are opaque naturals;
per-instruction entries are keyed by the index of the instruction within the
TB. -/
structure Registrations where
  tb_exec_cbs : List Nat
  tb_exec_inline : List InlineReg
  insn_exec_cbs : Nat → List Nat
  insn_exec_inline : Nat → List InlineReg
  after_insn_exec_cbs : Nat → List Nat
  after_insn_exec_inline : Nat → List InlineReg
  mem_cbs : Nat → List MemCbReg
  mem_inline : Nat → List MemInlineReg

/-- Modelled from the spec:
`qemu_plugin_register_vcpu_after_insn_exec_cb` (header lines 399 to 412;
implementation not in the repository): the registration is recorded
against the instruction unconditionally — acceptance does not depend on
whether the instruction is control-flow. -/
def qemu_plugin_register_vcpu_after_insn_exec_cb (r : Registrations)
    (idx : Nat) (cb : Nat) : Registrations :=
  { r with after_insn_exec_cbs := fun i =>
      if i = idx then r.after_insn_exec_cbs i ++ [cb]
      else r.after_insn_exec_cbs i }

/-- Modelled from the spec:
`qemu_plugin_register_vcpu_after_insn_exec_inline` (header lines 429 to
443): recorded unconditionally, like the callback form. -/
def qemu_plugin_register_vcpu_after_insn_exec_inline (r : Registrations)
    (idx : Nat) (op : qemu_plugin_op) (ptr : Nat) (imm : Nat) :
    Registrations :=
  { r with after_insn_exec_inline := fun i =>
      if i = idx then r.after_insn_exec_inline i ++ [⟨op, ptr, imm⟩]
      else r.after_insn_exec_inline i }

/-- One observable event during one execution of an instrumented TB:
a woven callback or inline op firing, or the guest instruction itself. -/
inductive Event where
  | tb_exec_cb : Nat → Event
  | tb_exec_inline : qemu_plugin_op → Nat → Nat → Event
  | insn_exec_cb : Nat → Nat → Event
  | insn_exec_inline : Nat → qemu_plugin_op → Nat → Nat → Event
  | guest_insn : Nat → Event
  | mem_inline_ev : Nat → qemu_plugin_op → Nat → Nat → MemAccess → Event
  | mem_cb : Nat → Nat → MemAccess → Event
  | after_insn_exec_cb : Nat → Nat → Event
  | after_insn_exec_inline : Nat → qemu_plugin_op → Nat → Nat → Event
  deriving DecidableEq

/-- Is the event a TB-level execution callback or TB-entry inline op? -/
def Event.is_tb_level_exec : Event → Bool
  | Event.tb_exec_cb _ => true
  | Event.tb_exec_inline _ _ _ => true
  | _ => false

/-- Is the event an instruction-level execution callback or inline op
(before- or after-execution)? -/
def Event.is_insn_level_exec : Event → Bool
  | Event.insn_exec_cb _ _ => true
  | Event.insn_exec_inline _ _ _ _ => true
  | Event.after_insn_exec_cb _ _ => true
  | Event.after_insn_exec_inline _ _ _ _ => true
  | _ => false

/-- Is the event an after-execution full callback or after-execution
inline op? -/
def Event.is_after : Event → Bool
  | Event.after_insn_exec_cb _ _ => true
  | Event.after_insn_exec_inline _ _ _ _ => true
  | _ => false

/-- Is the event memory instrumentation (a memory callback or a
per-access inline op)? -/
def Event.is_mem_instr : Event → Bool
  | Event.mem_cb _ _ _ => true
  | Event.mem_inline_ev _ _ _ _ _ => true
  | _ => false

/-- The instruction index an event is attached to (`none` for TB-level
events). -/
def Event.idx? : Event → Option Nat
  | Event.tb_exec_cb _ => none
  | Event.tb_exec_inline _ _ _ => none
  | Event.insn_exec_cb i _ => some i
  | Event.insn_exec_inline i _ _ _ => some i
  | Event.guest_insn i => some i
  | Event.mem_inline_ev i _ _ _ _ => some i
  | Event.mem_cb i _ _ => some i
  | Event.after_insn_exec_cb i _ => some i
  | Event.after_insn_exec_inline i _ _ _ => some i

/-- Modelled from the spec: the memory instrumentation woven for one
access of instruction `idx` — per-access inline ops, then memory
callbacks, keeping only registrations whose direction filter matches the
access (spec 4.4 step 3). -/
def memAccessEvents (r : Registrations) (idx : Nat) (a : MemAccess) :
    List Event :=
  ((r.mem_inline idx).filter (fun m => rw_matches m.rw a.is_store)).map
    (fun m => Event.mem_inline_ev idx m.op m.ptr m.imm a) ++
  ((r.mem_cbs idx).filter (fun m => rw_matches m.rw a.is_store)).map
    (fun m => Event.mem_cb idx m.cb a)

/-- Modelled from the spec: memory instrumentation fired by one
execution of instruction `idx` performing `accesses`; "A TB without the
memory-ops flag never fires memory callbacks even if registered"
(spec 4.4), and with the flag, one batch per access — none when the
execution performs no access (header lines 761 to 763). -/
def memEvents (r : Registrations) (tb : TB) (idx : Nat)
    (accesses : List MemAccess) : List Event :=
  if tb.flags &&& QEMU_PLUGIN_TB_MEM_OPS = 0 then []
  else accesses.flatMap (memAccessEvents r idx)

/-- Modelled from the spec: the events of one execution of instruction
`idx` of `tb` (spec 4.4 steps 3 and 4, spec 5 ordering): pre-execution
inline ops and callbacks, the guest instruction, its memory
instrumentation, then — only when the instruction is not control-flow —
the after-execution inline ops and callbacks.  On a memory-only TB,
instruction-level execution instrumentation is suppressed and only
memory instrumentation applies. -/
def insnEvents (r : Registrations) (tb : TB) (idx : Nat) (insn : Insn)
    (accesses : List MemAccess) : List Event :=
  if tb.flags &&& QEMU_PLUGIN_TB_MEM_ONLY ≠ 0 then
    Event.guest_insn idx :: memEvents r tb idx accesses
  else
    (r.insn_exec_inline idx).map
      (fun m => Event.insn_exec_inline idx m.op m.ptr m.imm) ++
    (r.insn_exec_cbs idx).map (fun cb => Event.insn_exec_cb idx cb) ++
    [Event.guest_insn idx] ++
    memEvents r tb idx accesses ++
    (if insn.is_control_flow then []
     else
       (r.after_insn_exec_inline idx).map
         (fun m => Event.after_insn_exec_inline idx m.op m.ptr m.imm) ++
       (r.after_insn_exec_cbs idx).map
         (fun cb => Event.after_insn_exec_cb idx cb))

/-- The per-instruction events of a TB in order, `i` being the index of
the first instruction of `l` within the TB. -/
def insnListEvents (r : Registrations) (tb : TB)
    (accesses : Nat → List MemAccess) : Nat → List Insn → List Event
  | _, [] => []
  | i, insn :: rest =>
      insnEvents r tb i insn (accesses i) ++
      insnListEvents r tb accesses (i + 1) rest

/-- Modelled from the spec: the TB-entry instrumentation (spec 4.4
step 2): every TB-entry inline op, then every TB-entry callback, both
suppressed on a memory-only TB (spec 4.4 step 4). -/
def tbHeadEvents (r : Registrations) (tb : TB) : List Event :=
  if tb.flags &&& QEMU_PLUGIN_TB_MEM_ONLY ≠ 0 then []
  else
    r.tb_exec_inline.map (fun m => Event.tb_exec_inline m.op m.ptr m.imm) ++
    r.tb_exec_cbs.map (fun cb => Event.tb_exec_cb cb)

/-- Modelled from the spec: the full instrumentation trace of one
execution of a TB; `accesses i` lists the memory accesses instruction
`i` performs during this execution. -/
def tbTrace (r : Registrations) (tb : TB)
    (accesses : Nat → List MemAccess) : List Event :=
  tbHeadEvents r tb ++ insnListEvents r tb accesses 0 tb.insns

/-- Example registration table used by witnesses: one entry in every
table, memory entries filtered read-write. -/
def ex_regs : Registrations :=
  ⟨[10], [⟨qemu_plugin_op.add_u64, 1, 1⟩],
   fun _ => [20], fun _ => [⟨qemu_plugin_op.add_u64, 2, 1⟩],
   fun _ => [30], fun _ => [⟨qemu_plugin_op.add_u64, 3, 1⟩],
   fun _ => [⟨40, MemRW.mem_rw⟩],
   fun _ => [⟨MemRW.mem_rw, qemu_plugin_op.add_u64, 4, 1⟩]⟩

/-- Example TB used by witnesses: one control-flow instruction, flags =
QEMU_PLUGIN_TB_MEM_OPS. -/
def ex_tb_cf : TB :=
  ⟨0x400, [⟨0x400, [0xc3], true⟩], 0x02, 99⟩

/-- Example memory-only TB used by witnesses: one non-control-flow
instruction, flags = QEMU_PLUGIN_TB_MEM_ONLY plus
QEMU_PLUGIN_TB_MEM_OPS. -/
def ex_tb_mem_only : TB :=
  ⟨0x500, [⟨0x500, [0x8b], false⟩], 0x03, 98⟩

/-- Example access pattern used by witnesses: every instruction performs
one load. -/
def ex_accesses : Nat → List MemAccess :=
  fun _ => [⟨0x1000, false⟩]

/-- Example access pattern used by witnesses: no instruction performs
any access. -/
def ex_no_accesses : Nat → List MemAccess :=
  fun _ => []

/-- Number of completion firings demanded by a pair of phases: one when
the run ends released from a phase that was not yet released. -/
def completion_quota (p q : PluginPhase) : Nat :=
  if q = PluginPhase.released ∧ p ≠ PluginPhase.released then 1 else 0

/-! ## Helper lemmas -/

/-- Any event of the memory instrumentation of one access is a memory
event carrying the index of the instruction. -/
theorem mem_memAccessEvents {r : Registrations} {idx : Nat}
    {a : MemAccess} {e : Event} (h : e ∈ memAccessEvents r idx a) :
    e.is_mem_instr = true ∧ e.idx? = some idx ∧ e.is_after = false ∧
    e.is_tb_level_exec = false ∧ e.is_insn_level_exec = false := by
  rcases List.mem_append.mp h with h1 | h1 <;>
    obtain ⟨m, hm, rfl⟩ := List.mem_map.mp h1 <;>
    exact ⟨rfl, rfl, rfl, rfl, rfl⟩

/-- Any event of the memory instrumentation of an execution is a memory
event at the index of the instruction, and requires at least one access. -/
theorem mem_memEvents {r : Registrations} {tb : TB} {idx : Nat}
    {as : List MemAccess} {e : Event} (h : e ∈ memEvents r tb idx as) :
    e.is_mem_instr = true ∧ e.idx? = some idx ∧ e.is_after = false ∧
    e.is_tb_level_exec = false ∧ e.is_insn_level_exec = false ∧
    as ≠ [] := by
  rw [memEvents] at h
  split at h
  · exact absurd h (List.not_mem_nil e)
  · obtain ⟨a, ha, he⟩ := List.mem_flatMap.mp h
    obtain ⟨h1, h2, h3, h4, h5⟩ := mem_memAccessEvents he
    refine ⟨h1, h2, h3, h4, h5, ?_⟩
    rintro rfl
    exact List.not_mem_nil a ha

/-- Classification of the events of the execution of one instruction: every
event carries the index of the instruction; after-execution events occur only
outside memory-only TBs and only for non-control-flow instructions;
memory events require at least one access; on a memory-only TB only the
guest instruction and memory instrumentation remain. -/
theorem mem_insnEvents {r : Registrations} {tb : TB} {idx : Nat}
    {insn : Insn} {as : List MemAccess} {e : Event}
    (h : e ∈ insnEvents r tb idx insn as) :
    e.idx? = some idx ∧
    (e.is_after = true →
      tb.flags &&& QEMU_PLUGIN_TB_MEM_ONLY = 0 ∧
      insn.is_control_flow = false) ∧
    (e.is_mem_instr = true → as ≠ []) ∧
    (tb.flags &&& QEMU_PLUGIN_TB_MEM_ONLY ≠ 0 →
      e.is_tb_level_exec = false ∧ e.is_insn_level_exec = false ∧
      (e.is_mem_instr = true ∨ e = Event.guest_insn idx)) := by
  rw [insnEvents] at h
  split at h
  case isTrue hmo =>
      rcases List.mem_cons.mp h with rfl | hmem
      · exact ⟨rfl, by simp [Event.is_after], by simp [Event.is_mem_instr],
          fun _ => ⟨rfl, rfl, Or.inr rfl⟩⟩
      · obtain ⟨h1, h2, h3, h4, h5, h6⟩ := mem_memEvents hmem
        exact ⟨h2, by simp [h3], fun _ => h6, fun _ => ⟨h4, h5, Or.inl h1⟩⟩
  case isFalse hmo =>
      have hmo0 : tb.flags &&& QEMU_PLUGIN_TB_MEM_ONLY = 0 :=
        not_ne_iff.mp hmo
      refine ?_
      rcases List.mem_append.mp h with h1 | hafter
      · rcases List.mem_append.mp h1 with h2 | hmem
        · rcases List.mem_append.mp h2 with h3 | h3
          · rcases List.mem_append.mp h3 with h4 | h4
            · obtain ⟨m, hm, rfl⟩ := List.mem_map.mp h4
              exact ⟨rfl, by simp [Event.is_after],
                by simp [Event.is_mem_instr], fun hc => absurd hc hmo⟩
            · obtain ⟨cb, hm, rfl⟩ := List.mem_map.mp h4
              exact ⟨rfl, by simp [Event.is_after],
                by simp [Event.is_mem_instr], fun hc => absurd hc hmo⟩
          · rcases List.mem_singleton.mp h3 with rfl
            exact ⟨rfl, by simp [Event.is_after],
              by simp [Event.is_mem_instr], fun hc => absurd hc hmo⟩
        · obtain ⟨h1, h2, h3, h4, h5, h6⟩ := mem_memEvents hmem
          exact ⟨h2, by simp [h3], fun _ => h6, fun hc => absurd hc hmo⟩
      · split at hafter
        · exact absurd hafter (List.not_mem_nil e)
        case isFalse hcf =>
            have hcf0 : insn.is_control_flow = false :=
              Bool.not_eq_true _ ▸ Bool.eq_false_iff.mpr hcf
            rcases List.mem_append.mp hafter with h4 | h4 <;>
              obtain ⟨m, hm, rfl⟩ := List.mem_map.mp h4 <;>
              exact ⟨rfl, fun _ => ⟨hmo0, hcf0⟩,
                by simp [Event.is_mem_instr], fun hc => absurd hc hmo⟩

/-- Each event of the per-instruction part of a trace belongs to the
execution of the instruction at some index `i + k` of the list. -/
theorem mem_insnListEvents {r : Registrations} {tb : TB}
    {accesses : Nat → List MemAccess} {e : Event} :
    ∀ {i : Nat} {l : List Insn}, e ∈ insnListEvents r tb accesses i l →
    ∃ k insn, l[k]? = some insn ∧
      e ∈ insnEvents r tb (i + k) insn (accesses (i + k)) := by
  intro i l
  induction l generalizing i with
  | nil => intro h; exact absurd h (List.not_mem_nil e)
  | cons insn rest ih =>
      intro h
      rcases List.mem_append.mp h with h1 | h1
      · exact ⟨0, insn, by simp, by simpa using h1⟩
      · obtain ⟨k, insn2, hk, he⟩ := ih h1
        refine ⟨k + 1, insn2, by simpa using hk, ?_⟩
        have harith : i + (k + 1) = i + 1 + k := by omega
        rw [harith]
        exact he

/-- TB-entry events are TB-level: never after-execution, never memory,
and attached to no instruction index. -/
theorem mem_tbHeadEvents {r : Registrations} {tb : TB} {e : Event}
    (h : e ∈ tbHeadEvents r tb) :
    e.is_after = false ∧ e.is_mem_instr = false ∧ e.idx? = none := by
  rw [tbHeadEvents] at h
  split at h
  · exact absurd h (List.not_mem_nil e)
  · rcases List.mem_append.mp h with h1 | h1 <;>
      obtain ⟨m, hm, rfl⟩ := List.mem_map.mp h1 <;>
      exact ⟨rfl, rfl, rfl⟩

/-- No event can occur for a released plugin: a run from `released`
succeeds only on the empty sequence. -/
theorem run_events_released {es : List PluginEvent} {p : PluginPhase}
    (h : run_events PluginPhase.released es = some p) : es = [] := by
  cases es with
  | nil => rfl
  | cons e es =>
      exfalso
      cases e <;> simp [run_events, uninstall_step] at h

/-- Running an appended sequence is running the parts in order. -/
theorem run_events_append (p : PluginPhase) (xs ys : List PluginEvent) :
    run_events p (xs ++ ys)
      = (run_events p xs).bind (fun q => run_events q ys) := by
  induction xs generalizing p with
  | nil => rfl
  | cons e xs ih =>
      show run_events p (e :: (xs ++ ys)) = _
      cases hs : uninstall_step p e with
      | none => simp [run_events, hs]
      | some q => simp [run_events, hs, ih q]

/-- In every valid run, the completion callback fires exactly
`completion_quota`: once on any run reaching `released`, never
otherwise. -/
theorem run_events_completion_count {es : List PluginEvent}
    {p q : PluginPhase} (h : run_events p es = some q) :
    es.count PluginEvent.completion_fire = completion_quota p q := by
  induction es generalizing p with
  | nil =>
      simp [run_events] at h
      subst h
      simp [completion_quota, List.count_nil]
  | cons e es ih =>
      cases p <;> cases e <;>
        simp only [run_events, uninstall_step] at h
      all_goals try exact Option.noConfusion h
      case active.cb_fire =>
          simp [List.count_cons, ih h, completion_quota]
      case active.uninstall_req =>
          simp [List.count_cons, ih h, completion_quota]
      case draining.cb_fire =>
          simp [List.count_cons, ih h, completion_quota]
      case draining.completion_fire =>
          have hes := run_events_released h
          subst hes
          simp only [run_events, Option.some.injEq] at h
          subst h
          simp [List.count_cons, completion_quota]

end QemuPlugin

namespace QemuPlugin

/-! ## Claim theorems (uninstall, handles) -/

/-- C1: in every valid event sequence for a plugin starting active, the
completion callback fires exactly once when the run reaches `released`
and never before; no event of the plugin, in particular no registered
callback, follows the completion firing; and callbacks may still fire
between the uninstall request and completion. -/
theorem C1_uninstall_quiescence (tr : List PluginEvent) (p : PluginPhase)
    (h : run_events PluginPhase.active tr = some p) :
    (p = PluginPhase.released →
      tr.count PluginEvent.completion_fire = 1) ∧
    (p ≠ PluginPhase.released →
      tr.count PluginEvent.completion_fire = 0) ∧
    (∀ pre post, tr = pre ++ PluginEvent.completion_fire :: post →
      post = []) ∧
    run_events PluginPhase.active
      [PluginEvent.uninstall_req, PluginEvent.cb_fire, PluginEvent.cb_fire,
       PluginEvent.completion_fire] = some PluginPhase.released := by
  refine ⟨?_, ?_, ?_, rfl⟩
  · intro hp
    subst hp
    rw [run_events_completion_count h]
    simp [completion_quota]
  · intro hp
    rw [run_events_completion_count h]
    simp [completion_quota, hp]
  · intro pre post hsplit
    subst hsplit
    rw [run_events_append] at h
    cases hpre : run_events PluginPhase.active pre with
    | none => rw [hpre] at h; exact absurd h (by simp)
    | some q =>
        rw [hpre] at h
        simp only [Option.some_bind] at h
        cases hs : uninstall_step q PluginEvent.completion_fire with
        | none => simp [run_events, hs] at h
        | some q1 =>
            have h2 : run_events q1 post = some p := by
              simpa [run_events, hs] using h
            have hq1 : q1 = PluginPhase.released := by
              cases q with
              | active => simp [uninstall_step] at hs
              | draining =>
                  simp only [uninstall_step, Option.some.injEq] at hs
                  exact hs.symm
              | released => simp [uninstall_step] at hs
            subst hq1
            exact run_events_released h2

/-- Witness for C1: the four-event trace request, two callbacks,
completion is valid, reaches released, counts one completion, and has
nothing after the completion event. -/
theorem C1_uninstall_quiescence_witness :
    ((PluginPhase.released = PluginPhase.released →
      ([PluginEvent.uninstall_req, PluginEvent.cb_fire, PluginEvent.cb_fire,
        PluginEvent.completion_fire] : List PluginEvent).count
        PluginEvent.completion_fire = 1) ∧
     (PluginPhase.released ≠ PluginPhase.released →
      ([PluginEvent.uninstall_req, PluginEvent.cb_fire, PluginEvent.cb_fire,
        PluginEvent.completion_fire] : List PluginEvent).count
        PluginEvent.completion_fire = 0) ∧
     (∀ pre post,
      ([PluginEvent.uninstall_req, PluginEvent.cb_fire, PluginEvent.cb_fire,
        PluginEvent.completion_fire] : List PluginEvent)
        = pre ++ PluginEvent.completion_fire :: post → post = []) ∧
     run_events PluginPhase.active
      [PluginEvent.uninstall_req, PluginEvent.cb_fire, PluginEvent.cb_fire,
       PluginEvent.completion_fire] = some PluginPhase.released) :=
  C1_uninstall_quiescence
    [PluginEvent.uninstall_req, PluginEvent.cb_fire, PluginEvent.cb_fire,
     PluginEvent.completion_fire] PluginPhase.released rfl

/-- C6: an introspection query (here dispatched generically and, in
particular, `qemu_plugin_tb_get_insn`) invoked with a handle whose
producing frame has already exited fails with handle-expired rather than
returning an answer; once the producing frame exits, any number of
further frame changes still leaves the handle expired. -/
theorem C6_handle_expired {α β : Type} (reg : HandleRegistry)
    (hd : Handle α) (q : α → β) (tbh : Handle TB) (idx : Nat)
    (hfr : hd.frame = reg.current_frame)
    (htb : tbh.frame = reg.current_frame) :
    ∀ n : Nat, 0 < n →
      introspect (exit_frame^[n] reg) hd q = QueryResult.handle_expired ∧
      qemu_plugin_tb_get_insn (exit_frame^[n] reg) tbh idx
        = QueryResult.handle_expired := by
  have hcur : ∀ n : Nat, (exit_frame^[n] reg).current_frame
      = reg.current_frame + n := by
    intro n
    induction n with
    | zero => simp
    | succ m ih =>
        rw [Function.iterate_succ_apply']
        show (exit_frame^[m] reg).current_frame + 1
          = reg.current_frame + (m + 1)
        rw [ih]
        omega
  intro n hn
  constructor
  · rw [introspect, if_neg]
    rw [hcur n, hfr]
    omega
  · rw [qemu_plugin_tb_get_insn, introspect, if_neg]
    rw [hcur n, htb]
    omega

/-- Witness for C6: a handle produced in frame 5 while the registry is in
frame 5 is expired after one frame exit. -/
theorem C6_handle_expired_witness :
    introspect (exit_frame^[1] ⟨5⟩) (⟨5, 0⟩ : Handle Nat) (fun x => x)
      = QueryResult.handle_expired ∧
    qemu_plugin_tb_get_insn (exit_frame^[1] ⟨5⟩)
      (⟨5, ⟨0, [], 0, 0⟩⟩ : Handle TB) 0 = QueryResult.handle_expired :=
  C6_handle_expired ⟨5⟩ (⟨5, 0⟩ : Handle Nat) (fun x => x)
    (⟨5, ⟨0, [], 0, 0⟩⟩ : Handle TB) 0 rfl rfl 1 (by decide)

/-! ## Helper lemmas continued -/

/-- The k-th issued id is the starting counter plus k. -/
theorem issued_id_eq (s : LoaderState) (k : Nat) :
    issued_id s k = s.next_id + k := by
  induction k generalizing s with
  | zero => rfl
  | succ n ih =>
      show issued_id (issue_plugin_id s).snd n = s.next_id + (n + 1)
      rw [ih]
      show s.next_id + 1 + n = s.next_id + (n + 1)
      omega

end QemuPlugin

namespace QemuPlugin

/-! ## Claim theorems (identity, versioning, parsing) -/

/-- C2: a plugin whose exported ABI-level integer lies outside
[host.min, host.cur] is refused, the entry point is never consulted
(the outcome does not depend on it), and the ABI level of the header at this
revision is 7. -/
theorem C2_version_gate (host : VersionInfo) (v : Int) (f : Unit → Int)
    (h : v < host.min ∨ host.cur < v) :
    qemu_plugin_load host v f = LoadResult.refused ∧
    (∀ g : Unit → Int, qemu_plugin_load host v f = qemu_plugin_load host v g) ∧
    QEMU_PLUGIN_VERSION = 7 := by
  refine ⟨?_, ?_, rfl⟩
  · simp [qemu_plugin_load, if_pos h]
  · intro g
    simp [qemu_plugin_load, if_pos h]

/-- Witness for C2 at host range [2, 7] and plugin version 9. -/
theorem C2_version_gate_witness :
    qemu_plugin_load ⟨2, 7⟩ 9 (fun _ => 0) = LoadResult.refused ∧
    (∀ g : Unit → Int,
      qemu_plugin_load ⟨2, 7⟩ 9 (fun _ => 0) = qemu_plugin_load ⟨2, 7⟩ 9 g) ∧
    QEMU_PLUGIN_VERSION = 7 :=
  C2_version_gate ⟨2, 7⟩ 9 (fun _ => 0) (Or.inr (by decide))

/-- C5: PluginId values issued to distinct loads within one process are
distinct; a value, once issued, is never reused for a later plugin. -/
theorem C5_plugin_id_unique (s : LoaderState) (k l : Nat) (h : k ≠ l) :
    issued_id s k ≠ issued_id s l := by
  rw [issued_id_eq, issued_id_eq]
  omega

/-- Witness for C5: the first and second ids issued from counter 0
differ. -/
theorem C5_plugin_id_unique_witness :
    issued_id ⟨0⟩ 0 ≠ issued_id ⟨0⟩ 1 :=
  C5_plugin_id_unique ⟨0⟩ 0 1 (by decide)

/-- C8: for every argument name, the value strings on/yes/true parse to
`true`, off/no/false parse to `false`, and every other value string fails
to parse. -/
theorem C8_bool_parse_spec (name : String) :
    (qemu_plugin_bool_parse name ("on") = some true ∧
     qemu_plugin_bool_parse name ("yes") = some true ∧
     qemu_plugin_bool_parse name ("true") = some true ∧
     qemu_plugin_bool_parse name ("off") = some false ∧
     qemu_plugin_bool_parse name ("no") = some false ∧
     qemu_plugin_bool_parse name ("false") = some false) ∧
    (∀ val : String,
      val ∉ (["on", "yes", "true", "off", "no", "false"] : List String) →
      qemu_plugin_bool_parse name val = none) := by
  constructor
  · refine ⟨?_, ?_, ?_, ?_, ?_, ?_⟩ <;> simp [qemu_plugin_bool_parse]
  · intro val hv
    simp only [List.mem_cons, List.not_mem_nil, or_false] at hv
    push_neg at hv
    obtain ⟨h1, h2, h3, h4, h5, h6⟩ := hv
    simp [qemu_plugin_bool_parse, h1, h2, h3, h4, h5, h6]

/-- Witness for C8 at name "foo": "on" parses to true and "maybe"
fails. -/
theorem C8_bool_parse_spec_witness :
    qemu_plugin_bool_parse ("foo") ("on") = some true ∧
    qemu_plugin_bool_parse ("foo") ("maybe") = none :=
  ⟨(C8_bool_parse_spec ("foo")).1.1,
   (C8_bool_parse_spec ("foo")).2 ("maybe") (by decide)⟩

/-- C7: every mode-dependent query returns its documented sentinel in
the non-applicable mode: the vCPU count queries return -1 and the hwaddr
lookup returns NULL (`none`) in user mode; the text-segment
start/end/entry queries return 0 and the binary-path query returns NULL
(`none`) in system emulation. -/
theorem C7_mode_sentinels (h : HostState) :
    (h.mode = EmulationMode.user_mode →
      qemu_plugin_n_vcpus h = -1 ∧
      qemu_plugin_n_max_vcpus h = -1 ∧
      ∀ info vaddr, qemu_plugin_get_hwaddr h info vaddr = none) ∧
    (h.mode = EmulationMode.system_mode →
      qemu_plugin_start_code h = 0 ∧
      qemu_plugin_end_code h = 0 ∧
      qemu_plugin_entry_code h = 0 ∧
      qemu_plugin_path_to_binary h = none) := by
  constructor
  · intro hm
    refine ⟨?_, ?_, ?_⟩ <;>
      simp [qemu_plugin_n_vcpus, qemu_plugin_n_max_vcpus,
            qemu_plugin_get_hwaddr, hm]
  · intro hm
    refine ⟨?_, ?_, ?_, ?_⟩ <;>
      simp [qemu_plugin_start_code, qemu_plugin_end_code,
            qemu_plugin_entry_code, qemu_plugin_path_to_binary, hm]

/-- Witness for C7 on a concrete user-mode host and a concrete
system-mode host. -/
theorem C7_mode_sentinels_witness :
    qemu_plugin_n_vcpus user_host = -1 ∧
    qemu_plugin_n_max_vcpus user_host = -1 ∧
    qemu_plugin_get_hwaddr user_host 0 0 = none ∧
    qemu_plugin_start_code system_host = 0 ∧
    qemu_plugin_end_code system_host = 0 ∧
    qemu_plugin_entry_code system_host = 0 ∧
    qemu_plugin_path_to_binary system_host = none :=
  ⟨((C7_mode_sentinels user_host).1 rfl).1,
   ((C7_mode_sentinels user_host).1 rfl).2.1,
   ((C7_mode_sentinels user_host).1 rfl).2.2 0 0,
   ((C7_mode_sentinels system_host).2 rfl).1,
   ((C7_mode_sentinels system_host).2 rfl).2.1,
   ((C7_mode_sentinels system_host).2 rfl).2.2.1,
   ((C7_mode_sentinels system_host).2 rfl).2.2.2⟩

/-- C9: the buffer address reported by `qemu_plugin_reg_ptr` for any
slot is unchanged across any number of `qemu_plugin_regs_load` calls on
the context, and each load overwrites the byte contents of the slot with the
current value in the vCPU of the register of that slot. -/
theorem C9_reg_ptr_stable (ctx : RegCtx) (loads : List VcpuState)
    (idx : Nat) :
    qemu_plugin_reg_ptr
      (loads.foldl (fun c v => qemu_plugin_regs_load v c) ctx) idx
      = qemu_plugin_reg_ptr ctx idx ∧
    (∀ (v : VcpuState) (s : RegSlot), ctx.slots[idx]? = some s →
      qemu_plugin_reg_data (qemu_plugin_regs_load v ctx) idx
        = some (v.read_reg s.reg_name)) := by
  constructor
  · induction loads generalizing ctx with
    | nil => rfl
    | cons v vs ih =>
        show qemu_plugin_reg_ptr
            (vs.foldl (fun c v => qemu_plugin_regs_load v c)
              (qemu_plugin_regs_load v ctx)) idx = _
        rw [ih (qemu_plugin_regs_load v ctx)]
        simp only [qemu_plugin_reg_ptr, qemu_plugin_regs_load,
          List.getElem?_map]
        cases ctx.slots[idx]? <;> rfl
  · intro v s hs
    simp [qemu_plugin_reg_data, qemu_plugin_regs_load,
      List.getElem?_map, hs]

/-- C3: for an instruction marked control-flow, no after-execution full
callback and no after-execution inline op ever fires for that
instruction in any execution trace of its TB, while registering an
after-execution hook (callback or inline) on it is accepted: the
registration is appended to the table of the instruction. -/
theorem C3_control_flow_no_after (r : Registrations) (tb : TB)
    (accesses : Nat → List MemAccess) (i : Nat) (insn : Insn)
    (hget : tb.insns[i]? = some insn)
    (hcf : insn.is_control_flow = true) :
    (∀ e ∈ tbTrace r tb accesses, e.is_after = true → e.idx? ≠ some i) ∧
    (∀ cb,
      (qemu_plugin_register_vcpu_after_insn_exec_cb r i
        cb).after_insn_exec_cbs i
        = r.after_insn_exec_cbs i ++ [cb]) ∧
    (∀ op ptr imm,
      (qemu_plugin_register_vcpu_after_insn_exec_inline r i op ptr
        imm).after_insn_exec_inline i
        = r.after_insn_exec_inline i ++ [⟨op, ptr, imm⟩]) := by
  refine ⟨?_, ?_, ?_⟩
  · intro e he hafter hidx
    rw [tbTrace] at he
    rcases List.mem_append.mp he with hh | ht
    · have h1 := (mem_tbHeadEvents hh).1
      rw [hafter] at h1
      exact Bool.noConfusion h1
    · obtain ⟨k, insn2, hk, hev⟩ := mem_insnListEvents ht
      obtain ⟨hid, hafterimp, _, _⟩ := mem_insnEvents hev
      obtain ⟨_, hcf2⟩ := hafterimp hafter
      rw [hid] at hidx
      have hki : k = i := by
        have := Option.some.inj hidx
        omega
      subst hki
      have hins : insn2 = insn := Option.some.inj (hk.symm.trans hget)
      rw [hins, hcf] at hcf2
      exact Bool.noConfusion hcf2
  · intro cb
    simp [qemu_plugin_register_vcpu_after_insn_exec_cb]
  · intro op ptr imm
    simp [qemu_plugin_register_vcpu_after_insn_exec_inline]

/-- Witness for C3: a TB whose single instruction is control-flow, with
every kind of registration present. -/
theorem C3_control_flow_no_after_witness :
    (∀ e ∈ tbTrace ex_regs ex_tb_cf ex_accesses,
      e.is_after = true → e.idx? ≠ some 0) ∧
    (∀ cb,
      (qemu_plugin_register_vcpu_after_insn_exec_cb ex_regs 0
        cb).after_insn_exec_cbs 0
        = ex_regs.after_insn_exec_cbs 0 ++ [cb]) ∧
    (∀ op ptr imm,
      (qemu_plugin_register_vcpu_after_insn_exec_inline ex_regs 0 op ptr
        imm).after_insn_exec_inline 0
        = ex_regs.after_insn_exec_inline 0 ++ [⟨op, ptr, imm⟩]) :=
  C3_control_flow_no_after ex_regs ex_tb_cf ex_accesses 0
    ⟨0x400, [0xc3], true⟩ rfl rfl

/-- C4: on a TB carrying QEMU_PLUGIN_TB_MEM_ONLY, no TB-level execution
callback or inline op and no instruction-level execution callback or
inline op ever fires; every event of the trace is either memory
instrumentation or a guest instruction. -/
theorem C4_mem_only_suppression (r : Registrations) (tb : TB)
    (accesses : Nat → List MemAccess)
    (h : tb.flags &&& QEMU_PLUGIN_TB_MEM_ONLY ≠ 0) :
    ∀ e ∈ tbTrace r tb accesses,
      e.is_tb_level_exec = false ∧ e.is_insn_level_exec = false ∧
      (e.is_mem_instr = true ∨ ∃ j, e = Event.guest_insn j) := by
  intro e he
  rw [tbTrace] at he
  rcases List.mem_append.mp he with hh | ht
  · rw [tbHeadEvents, if_pos h] at hh
    exact absurd hh (List.not_mem_nil e)
  · obtain ⟨k, insn2, hk, hev⟩ := mem_insnListEvents ht
    obtain ⟨_, _, _, h4⟩ := mem_insnEvents hev
    obtain ⟨h5, h6, h7⟩ := h4 h
    exact ⟨h5, h6, h7.elim Or.inl (fun hg => Or.inr ⟨0 + k, hg⟩)⟩

/-- Witness for C4: a memory-only TB with every kind of registration
present; the memory-callback event that does fire in its trace is
neither TB-level nor instruction-level execution instrumentation, and
the whole trace contains no execution instrumentation at all. -/
theorem C4_mem_only_suppression_witness :
    ((Event.mem_cb 0 40 ⟨0x1000, false⟩).is_tb_level_exec = false ∧
     (Event.mem_cb 0 40 ⟨0x1000, false⟩).is_insn_level_exec = false ∧
     ((Event.mem_cb 0 40 ⟨0x1000, false⟩).is_mem_instr = true ∨
      ∃ j, Event.mem_cb 0 40 ⟨0x1000, false⟩ = Event.guest_insn j)) ∧
    (tbTrace ex_regs ex_tb_mem_only ex_accesses).all
      (fun e => !e.is_tb_level_exec && !e.is_insn_level_exec) = true :=
  ⟨C4_mem_only_suppression ex_regs ex_tb_mem_only ex_accesses (by decide)
     (Event.mem_cb 0 40 ⟨0x1000, false⟩) (by decide),
   by decide⟩

/-- C10: if an execution of instruction `i` performs no memory access,
no memory callback (and no per-access inline op) fires for that
instruction in that execution, whatever the flags of the TB — in particular
even when the TB carries the memory-ops flag. -/
theorem C10_no_access_no_mem_cb (r : Registrations) (tb : TB)
    (accesses : Nat → List MemAccess) (i : Nat)
    (hacc : accesses i = []) :
    ∀ e ∈ tbTrace r tb accesses,
      e.is_mem_instr = true → e.idx? ≠ some i := by
  intro e he hmem hidx
  rw [tbTrace] at he
  rcases List.mem_append.mp he with hh | ht
  · have h1 := (mem_tbHeadEvents hh).2.1
    rw [hmem] at h1
    exact Bool.noConfusion h1
  · obtain ⟨k, insn2, hk, hev⟩ := mem_insnListEvents ht
    obtain ⟨hid, _, hmemimp, _⟩ := mem_insnEvents hev
    have hne := hmemimp hmem
    rw [hid] at hidx
    have hki : 0 + k = i := Option.some.inj hidx
    rw [hki] at hne
    exact hne hacc

/-- Witness for C10: a TB carrying the memory-ops flag, with a memory
callback registered, executed with no memory access: the claim holds at
a concrete event of the trace, and indeed the whole trace contains no
memory instrumentation. -/
theorem C10_no_access_no_mem_cb_witness :
    ex_no_accesses 0 = [] ∧
    ((Event.insn_exec_cb 0 20).is_mem_instr = true →
      (Event.insn_exec_cb 0 20).idx? ≠ some 0) ∧
    (tbTrace ex_regs ex_tb_cf ex_no_accesses).all
      (fun e => !e.is_mem_instr) = true :=
  ⟨rfl,
   C10_no_access_no_mem_cb ex_regs ex_tb_cf ex_no_accesses 0 rfl
     (Event.insn_exec_cb 0 20) (by decide),
   by decide⟩

/-- Witness for C9: a one-slot context for "pc" at buffer address 100,
loaded twice; the address is unchanged and the contents track the vCPU
state. -/
theorem C9_reg_ptr_stable_witness :
    qemu_plugin_reg_ptr
      (([⟨fun _ => [1]⟩, ⟨fun _ => [2]⟩] : List VcpuState).foldl
        (fun c v => qemu_plugin_regs_load v c)
        (⟨[⟨"pc", 100, [0]⟩]⟩ : RegCtx)) 0
      = qemu_plugin_reg_ptr (⟨[⟨"pc", 100, [0]⟩]⟩ : RegCtx) 0 ∧
    qemu_plugin_reg_data
      (qemu_plugin_regs_load ⟨fun _ => [7]⟩
        (⟨[⟨"pc", 100, [0]⟩]⟩ : RegCtx)) 0
      = some ((⟨fun _ => [7]⟩ : VcpuState).read_reg ("pc")) :=
  ⟨(C9_reg_ptr_stable (⟨[⟨"pc", 100, [0]⟩]⟩ : RegCtx)
      ([⟨fun _ => [1]⟩, ⟨fun _ => [2]⟩] : List VcpuState) 0).1,
   (C9_reg_ptr_stable (⟨[⟨"pc", 100, [0]⟩]⟩ : RegCtx)
      ([⟨fun _ => [1]⟩, ⟨fun _ => [2]⟩] : List VcpuState) 0).2
     ⟨fun _ => [7]⟩ ⟨"pc", 100, [0]⟩ rfl⟩

end QemuPlugin
